import Mathlib

/-!
# dd-webapp: the CSV to OSCAL component-definition transformation

A shallow embedding of `processCSV` from `dd-webapp/main.go` together with the
record types of `OscalComponent`, and theorems about the document it builds.

Modelling conventions.

* The anonymous nested structs of `OscalComponent` become named structures with
  the same field names (`Type` is reserved in Lean and is written `Type_`).
* `uuid.New().String()` is a stateful generator.  It is modelled by a stream of
  tokens `gen : Nat → String` and a counter: the `k`-th call made during a run
  returns `gen k`.  "A different token on every call" is `Function.Injective gen`.
* `time.Now().Format(time.RFC3339)` is the parameter `now`.
* `os.Open`, `csvReader.Read` and `csvReader.ReadAll` are calls into libraries;
  what they deliver is the input `RowSource`.
* An index expression `record[i]` with `i` out of range is a run-time panic:
  the function does not return.  This is the outcome `Outcome.panicked`.
-/

namespace DDWebapp

/-! ## Data model (`type OscalComponent struct`, main.go 16-56) -/

/-- Entry of `Parties[].Links`. -/
structure Link where
  Rel : String
  Href : String
  deriving DecidableEq, Repr

/-- Entry of `Metadata.Parties`. -/
structure Party where
  Type_ : String
  Name : String
  UUID : String
  Links : List Link
  deriving DecidableEq, Repr

/-- The `Metadata` struct. -/
structure Metadata where
  Version : String
  LastModified : String
  OscalVersion : String
  Title : String
  Parties : List Party
  deriving DecidableEq, Repr

/-- Entry of `Components[].ResponsibleRoles`. -/
structure ResponsibleRole where
  RoleID : String
  PartyUUIDs : List String
  deriving DecidableEq, Repr

/-- Entry of `ControlImplementations[].ImplementedRequirements`. -/
structure ImplementedRequirement where
  UUID : String
  ControlID : String
  Description : String
  deriving DecidableEq, Repr

/-- Entry of `Components[].ControlImplementations`. -/
structure ControlImplementation where
  Source : String
  Description : String
  UUID : String
  ImplementedRequirements : List ImplementedRequirement
  deriving DecidableEq, Repr

/-- Entry of `ComponentDefinition.Components`. -/
structure Component where
  UUID : String
  Title : String
  Description : String
  Type_ : String
  Purpose : String
  ResponsibleRoles : List ResponsibleRole
  ControlImplementations : List ControlImplementation
  deriving DecidableEq, Repr

/-- The `ComponentDefinition` struct. -/
structure ComponentDefinition where
  UUID : String
  Metadata : Metadata
  Components : List Component
  deriving DecidableEq, Repr

/-- The root struct `OscalComponent`. -/
structure OscalComponent where
  ComponentDefinition : ComponentDefinition
  deriving DecidableEq, Repr

/-! ## Environment -/

/-- What the three library calls of `processCSV` deliver, in program order:
`os.Open(filePath)`, `csvReader.Read()` (the header) and `csvReader.ReadAll()`
(the data rows).  A Go `error` value is represented by its message. -/
inductive RowSource where
  /-- `os.Open` returns an error (main.go 166-169). -/
  | openError (err : String)
  /-- The file opens, `csvReader.Read()` returns an error, for instance
  `io.EOF` on an empty file (main.go 173-176). -/
  | headerError (err : String)
  /-- The header is read, `csvReader.ReadAll()` returns an error
  (main.go 178-181). -/
  | readAllError (header : List String) (err : String)
  /-- The header is read and `ReadAll` returns the data rows. -/
  | rows (header : List String) (records : List (List String))
  deriving DecidableEq, Repr

/-- How a call of `processCSV` ends.  `returned doc err calls` is a normal
return of the pair `(doc, err)` (`err = none` is Go's `nil`); `calls` is the
state of the identifier generator at that point, i.e. the number of
`uuid.New()` calls the run has made.  `panicked` is a run-time panic from an
index out of range. -/
inductive Outcome where
  | returned (doc : OscalComponent) (err : Option String) (calls : Nat)
  | panicked
  deriving DecidableEq, Repr

/-- One call `uuid.New().String()`: the token and the advanced counter. -/
def uuidNew (gen : Nat → String) (n : Nat) : String × Nat := (gen n, n + 1)

/-! ## `processCSV` (main.go 135-251) -/

/-- The body of the `for _, record := range records` loop up to the value that
is appended (main.go 184-246).  `n` is the generator state on entry; the result
is the new component and the generator state on exit, or `none` when an index
expression on `record` is out of range. -/
def buildComponent (gen : Nat → String) (n : Nat) (record : List String) :
    Option (Component × Nat) :=
  let (componentUUID, n1) := uuidNew gen n
  let (requirementUUID, n2) := uuidNew gen n1
  do
    let title ← record[1]?
    let description ← record[2]?
    let (providerUUID, n3) := uuidNew gen n2
    let componentName ← record[1]?
    let (implementationUUID, n4) := uuidNew gen n3
    let controlID ← record[0]?
    let requirementDescription ← record[2]?
    pure
      ({ UUID := componentUUID
         Title := title
         Description := description
         Type_ := "software"
         Purpose := "Purpose of the component"
         ResponsibleRoles := [{ RoleID := "provider", PartyUUIDs := [providerUUID] }]
         ControlImplementations :=
           [{ Source := "https://raw.githubusercontent.com/usnistgov/oscal-content/master/nist.gov/SP800-53/rev5/json/NIST_SP-800-53_rev5_catalog.json"
              Description := "Controls implemented by " ++ componentName ++ " for inheritance by applications"
              UUID := implementationUUID
              ImplementedRequirements :=
                [{ UUID := requirementUUID
                   ControlID := controlID
                   Description := requirementDescription }] }] },
       n4)

/-- The loop `for _, record := range records { Components = append(Components, ...) }`
followed by `return oscalComponent, nil` (main.go 183-249). -/
def processRecords (gen : Nat → String) :
    List (List String) → OscalComponent → Nat → Outcome
  | [], oscalComponent, n => Outcome.returned oscalComponent none n
  | record :: rest, oscalComponent, n =>
    match buildComponent gen n record with
    | none => Outcome.panicked
    | some (component, n') =>
      processRecords gen rest
        { ComponentDefinition :=
            { oscalComponent.ComponentDefinition with
              Components := oscalComponent.ComponentDefinition.Components ++ [component] } }
        n'

/-- The function `processCSV` (main.go 135-251). -/
def processCSV (gen : Nat → String) (now : String) (src : RowSource) : Outcome :=
  let (documentUUID, n1) := uuidNew gen 0
  let (partyUUID, n2) := uuidNew gen n1
  let oscalComponent : OscalComponent :=
    { ComponentDefinition :=
        { UUID := documentUUID
          Metadata :=
            { Version := "0.0.1"
              LastModified := now
              OscalVersion := "1.0.4"
              Title := "DUBBD"
              Parties :=
                [{ Type_ := "organization"
                   Name := "Defense Unicorns"
                   UUID := partyUUID
                   Links := [{ Rel := "website", Href := "https://defenseunicorns.com" }] }] }
          Components := [] } }
  match src with
  | RowSource.openError err => Outcome.returned oscalComponent (some err) n2
  | RowSource.headerError err => Outcome.returned oscalComponent (some err) n2
  | RowSource.readAllError _ err => Outcome.returned oscalComponent (some err) n2
  | RowSource.rows _ records => processRecords gen records oscalComponent n2

/-! ## Auxiliary definitions for the statements and proofs -/

/-- Every data row has at least three fields. -/
def WellFormed (records : List (List String)) : Prop :=
  ∀ r ∈ records, 3 ≤ r.length

instance (records : List (List String)) : Decidable (WellFormed records) := by
  unfold WellFormed; infer_instance

/-- The components that successive runs of the loop body produce, starting with
generator state `n`; it stops at the first row on which the body fails. -/
def builtComponents (gen : Nat → String) : Nat → List (List String) → List Component
  | _, [] => []
  | n, record :: rest =>
    match buildComponent gen n record with
    | none => []
    | some (component, n') => component :: builtComponents gen n' rest

/-- The document value that `processCSV` holds when it reaches `os.Open`
(main.go 136-164), as a function of the two tokens and the time stamp. -/
def initialDocument (gen : Nat → String) (now : String) : OscalComponent :=
  { ComponentDefinition :=
      { UUID := gen 0
        Metadata :=
          { Version := "0.0.1"
            LastModified := now
            OscalVersion := "1.0.4"
            Title := "DUBBD"
            Parties :=
              [{ Type_ := "organization"
                 Name := "Defense Unicorns"
                 UUID := gen 1
                 Links := [{ Rel := "website", Href := "https://defenseunicorns.com" }] }] }
        Components := [] } }

/-- The `uuid` fields of a component: its own, those of its control
implementations and those of their implemented requirements. -/
def componentIds (c : Component) : List String :=
  c.UUID ::
    c.ControlImplementations.flatMap
      (fun ci => ci.UUID :: ci.ImplementedRequirements.map (fun ir => ir.UUID))

/-- The `uuid` fields of a document: the document, the parties, and the
components with what they contain. -/
def documentIds (doc : OscalComponent) : List String :=
  doc.ComponentDefinition.UUID ::
    (doc.ComponentDefinition.Metadata.Parties.map (fun p => p.UUID) ++
      doc.ComponentDefinition.Components.flatMap componentIds)

/-- The party references (`party-uuids`) in a component's responsible roles. -/
def providerIds (c : Component) : List String :=
  c.ResponsibleRoles.flatMap (fun role => role.PartyUUIDs)

/-- All generated tokens stored in a component. -/
def componentTokens (c : Component) : List String :=
  componentIds c ++ providerIds c

/-- All generated tokens stored in a document. -/
def documentTokens (doc : OscalComponent) : List String :=
  doc.ComponentDefinition.UUID ::
    (doc.ComponentDefinition.Metadata.Parties.map (fun p => p.UUID) ++
      doc.ComponentDefinition.Components.flatMap componentTokens)

/-- Go's zero value of `OscalComponent`, the value of the declaration
`var oscalComponent OscalComponent` (main.go 136): empty strings, nil slices. -/
def zeroDocument : OscalComponent :=
  { ComponentDefinition :=
      { UUID := ""
        Metadata :=
          { Version := "", LastModified := "", OscalVersion := "", Title := "", Parties := [] }
        Components := [] } }

/-! Erasure of the generated identifiers: every field that `processCSV` fills
from `uuid.New()` is replaced by the empty string. -/

/-- Erase the party's `uuid`. -/
def Party.eraseIds (p : Party) : Party := { p with UUID := "" }

/-- Erase the party references of a responsible role. -/
def ResponsibleRole.eraseIds (r : ResponsibleRole) : ResponsibleRole :=
  { r with PartyUUIDs := r.PartyUUIDs.map (fun _ => "") }

/-- Erase the requirement's `uuid`. -/
def ImplementedRequirement.eraseIds (r : ImplementedRequirement) : ImplementedRequirement :=
  { r with UUID := "" }

/-- Erase the `uuid` of a control implementation and of its requirements. -/
def ControlImplementation.eraseIds (ci : ControlImplementation) : ControlImplementation :=
  { ci with
    UUID := ""
    ImplementedRequirements := ci.ImplementedRequirements.map ImplementedRequirement.eraseIds }

/-- Erase all generated identifiers of a component. -/
def Component.eraseIds (c : Component) : Component :=
  { c with
    UUID := ""
    ResponsibleRoles := c.ResponsibleRoles.map ResponsibleRole.eraseIds
    ControlImplementations := c.ControlImplementations.map ControlImplementation.eraseIds }

/-- Erase all generated identifiers of a document. -/
def OscalComponent.eraseIds (doc : OscalComponent) : OscalComponent :=
  { ComponentDefinition :=
      { UUID := ""
        Metadata :=
          { doc.ComponentDefinition.Metadata with
            Parties := doc.ComponentDefinition.Metadata.Parties.map Party.eraseIds }
        Components := doc.ComponentDefinition.Components.map Component.eraseIds } }

/-- Erase the `last-modified` time stamp of a document. -/
def OscalComponent.eraseLastModified (doc : OscalComponent) : OscalComponent :=
  { ComponentDefinition :=
      { doc.ComponentDefinition with
        Metadata := { doc.ComponentDefinition.Metadata with LastModified := "" } } }

/-- Two rows have the same fields 0, 1 and 2 (present in both or absent in
both); further fields are not compared. -/
def SameFirstThree (r s : List String) : Prop :=
  r[0]? = s[0]? ∧ r[1]? = s[1]? ∧ r[2]? = s[2]?

/-! ## Sample inputs -/

/-- A generator whose `k`-th token is `k + 1` letters `u`; all tokens differ. -/
def sampleGen (k : Nat) : String := String.mk (List.replicate (k + 1) 'u')

/-- A time stamp in RFC 3339 format. -/
def sampleNow : String := "2023-06-01T12:00:00Z"

/-- A header row with three columns. -/
def sampleHeader : List String := ["Control", "Component", "Description"]

/-- Two data rows with three fields each. -/
def sampleRecords : List (List String) :=
  [["AC-1", "MyApp", "Enforces access control"],
   ["AU-2", "Logger", "Records audit events"]]

/-- A header row with four columns. -/
def sampleWideHeader : List String := ["Id", "Name", "Text", "Owner"]

/-- The rows of `sampleRecords`, each with a fourth field. -/
def sampleWideRecords : List (List String) :=
  [["AC-1", "MyApp", "Enforces access control", "team-a"],
   ["AU-2", "Logger", "Records audit events", "team-b"]]

/-- The document for `sampleRecords`, written out. -/
def sampleDocument : OscalComponent :=
  { ComponentDefinition :=
      { UUID := "u"
        Metadata :=
          { Version := "0.0.1"
            LastModified := "2023-06-01T12:00:00Z"
            OscalVersion := "1.0.4"
            Title := "DUBBD"
            Parties :=
              [{ Type_ := "organization"
                 Name := "Defense Unicorns"
                 UUID := "uu"
                 Links := [{ Rel := "website", Href := "https://defenseunicorns.com" }] }] }
        Components :=
          [{ UUID := "uuu"
             Title := "MyApp"
             Description := "Enforces access control"
             Type_ := "software"
             Purpose := "Purpose of the component"
             ResponsibleRoles := [{ RoleID := "provider", PartyUUIDs := ["uuuuu"] }]
             ControlImplementations :=
               [{ Source := "https://raw.githubusercontent.com/usnistgov/oscal-content/master/nist.gov/SP800-53/rev5/json/NIST_SP-800-53_rev5_catalog.json"
                  Description := "Controls implemented by MyApp for inheritance by applications"
                  UUID := "uuuuuu"
                  ImplementedRequirements :=
                    [{ UUID := "uuuu"
                       ControlID := "AC-1"
                       Description := "Enforces access control" }] }] },
           { UUID := "uuuuuuu"
             Title := "Logger"
             Description := "Records audit events"
             Type_ := "software"
             Purpose := "Purpose of the component"
             ResponsibleRoles := [{ RoleID := "provider", PartyUUIDs := ["uuuuuuuuu"] }]
             ControlImplementations :=
               [{ Source := "https://raw.githubusercontent.com/usnistgov/oscal-content/master/nist.gov/SP800-53/rev5/json/NIST_SP-800-53_rev5_catalog.json"
                  Description := "Controls implemented by Logger for inheritance by applications"
                  UUID := "uuuuuuuuuu"
                  ImplementedRequirements :=
                    [{ UUID := "uuuuuuuu"
                       ControlID := "AU-2"
                       Description := "Records audit events" }] }] }] } }

/-! ## Basic lemmas about the loop body -/

theorem exists_cons3 {r : List String} (h : 3 ≤ r.length) :
    ∃ a b c t, r = a :: b :: c :: t := by
  match r, h with
  | a :: b :: c :: t, _ => exact ⟨a, b, c, t, rfl⟩

theorem buildComponent_cons3 (gen : Nat → String) (n : Nat) (a b c : String)
    (t : List String) :
    buildComponent gen n (a :: b :: c :: t) =
      some
        ({ UUID := gen n
           Title := b
           Description := c
           Type_ := "software"
           Purpose := "Purpose of the component"
           ResponsibleRoles := [{ RoleID := "provider", PartyUUIDs := [gen (n + 2)] }]
           ControlImplementations :=
             [{ Source := "https://raw.githubusercontent.com/usnistgov/oscal-content/master/nist.gov/SP800-53/rev5/json/NIST_SP-800-53_rev5_catalog.json"
                Description := "Controls implemented by " ++ b ++ " for inheritance by applications"
                UUID := gen (n + 3)
                ImplementedRequirements :=
                  [{ UUID := gen (n + 1), ControlID := a, Description := c }] }] },
         n + 4) := by
  simp [buildComponent, uuidNew]

theorem buildComponent_short (gen : Nat → String) (n : Nat) {r : List String}
    (h : r.length < 3) : buildComponent gen n r = none := by
  match r, h with
  | [], _ => rfl
  | [_], _ => rfl
  | [_, _], _ => rfl

theorem buildComponent_some_length {gen : Nat → String} {n : Nat} {r : List String}
    {p : Component × Nat} (h : buildComponent gen n r = some p) : 3 ≤ r.length := by
  by_contra hlt
  rw [buildComponent_short gen n (Nat.lt_of_not_le hlt)] at h
  cases h

theorem buildComponent_counter {gen : Nat → String} {n : Nat} {r : List String}
    {p : Component × Nat} (h : buildComponent gen n r = some p) : p.2 = n + 4 := by
  obtain ⟨a, b, c, t, rfl⟩ := exists_cons3 (buildComponent_some_length h)
  rw [buildComponent_cons3] at h
  cases h
  rfl

/-! ## The loop -/

theorem builtComponents_length (gen : Nat → String) (records : List (List String))
    (hwf : WellFormed records) (n : Nat) :
    (builtComponents gen n records).length = records.length := by
  induction records generalizing n with
  | nil => rfl
  | cons r rest ih =>
    obtain ⟨a, b, c, t, rfl⟩ := exists_cons3 (hwf r (List.mem_cons_self _ _))
    have hrest : WellFormed rest := fun x hx => hwf x (List.mem_cons_of_mem _ hx)
    simp only [builtComponents, buildComponent_cons3, List.length_cons, ih hrest]

theorem builtComponents_getElem (gen : Nat → String) (records : List (List String))
    (hwf : WellFormed records) (n i : Nat) (hi : i < records.length) :
    ∃ c, (builtComponents gen n records)[i]? = some c ∧
      buildComponent gen (n + 4 * i) records[i] = some (c, n + 4 * i + 4) := by
  induction records generalizing n i with
  | nil => exact absurd hi (Nat.not_lt_zero _)
  | cons r rest ih =>
    obtain ⟨a, b, c, t, rfl⟩ := exists_cons3 (hwf r (List.mem_cons_self _ _))
    have hrest : WellFormed rest := fun x hx => hwf x (List.mem_cons_of_mem _ hx)
    cases i with
    | zero =>
      refine ⟨_, ?_, buildComponent_cons3 gen (n + 4 * 0) a b c t⟩
      simp [builtComponents, buildComponent_cons3]
    | succ j =>
      have hj : j < rest.length := Nat.lt_of_succ_lt_succ hi
      obtain ⟨c', h1, h2⟩ := ih hrest (n + 4) j hj
      refine ⟨c', ?_, ?_⟩
      · simpa [builtComponents, buildComponent_cons3] using h1
      · have e : n + 4 * (j + 1) = n + 4 + 4 * j := by omega
        simpa [e] using h2

theorem processRecords_wellFormed (gen : Nat → String) (records : List (List String))
    (hwf : WellFormed records) (oc : OscalComponent) (n : Nat) :
    processRecords gen records oc n =
      Outcome.returned
        { ComponentDefinition :=
            { oc.ComponentDefinition with
              Components :=
                oc.ComponentDefinition.Components ++ builtComponents gen n records } }
        none (n + 4 * records.length) := by
  induction records generalizing oc n with
  | nil => simp [processRecords, builtComponents]
  | cons r rest ih =>
    obtain ⟨a, b, c, t, rfl⟩ := exists_cons3 (hwf r (List.mem_cons_self _ _))
    have hrest : WellFormed rest := fun x hx => hwf x (List.mem_cons_of_mem _ hx)
    simp only [processRecords, builtComponents, buildComponent_cons3, ih hrest,
      List.length_cons, List.append_assoc, List.singleton_append]
    congr 1
    omega

theorem processRecords_not_wellFormed (gen : Nat → String) (records : List (List String))
    (h : ¬ WellFormed records) (oc : OscalComponent) (n : Nat) :
    processRecords gen records oc n = Outcome.panicked := by
  induction records generalizing oc n with
  | nil => exact absurd (fun r hr => absurd hr (List.not_mem_nil r)) h
  | cons r rest ih =>
    by_cases hr : 3 ≤ r.length
    · obtain ⟨a, b, c, t, rfl⟩ := exists_cons3 hr
      have hrest : ¬ WellFormed rest := by
        intro hw
        apply h
        intro x hx
        rcases List.mem_cons.1 hx with rfl | hx
        · exact hr
        · exact hw x hx
      simp only [processRecords, buildComponent_cons3, ih hrest]
    · simp only [processRecords, buildComponent_short gen n (Nat.lt_of_not_le hr)]

theorem processCSV_rows_wellFormed (gen : Nat → String) (now : String)
    (header : List String) (records : List (List String)) (hwf : WellFormed records) :
    processCSV gen now (RowSource.rows header records) =
      Outcome.returned
        { ComponentDefinition :=
            { (initialDocument gen now).ComponentDefinition with
              Components := builtComponents gen 2 records } }
        none (2 + 4 * records.length) := by
  simp only [processCSV, uuidNew, processRecords_wellFormed gen records hwf]
  rfl

/-- A normal return of `processCSV` is either an error return holding the
initial document, or the return after the loop over well-formed rows. -/
theorem processCSV_returned {gen : Nat → String} {now : String} {src : RowSource}
    {doc : OscalComponent} {err : Option String} {calls : Nat}
    (h : processCSV gen now src = Outcome.returned doc err calls) :
    (doc = initialDocument gen now ∧ err ≠ none ∧ calls = 2) ∨
    (∃ header records, src = RowSource.rows header records ∧ WellFormed records ∧
      doc = { ComponentDefinition :=
                { (initialDocument gen now).ComponentDefinition with
                  Components := builtComponents gen 2 records } } ∧
      err = none ∧ calls = 2 + 4 * records.length) := by
  cases src with
  | openError e =>
    left
    simp only [processCSV, uuidNew, Outcome.returned.injEq] at h
    obtain ⟨h1, h2, h3⟩ := h
    subst h1 h2 h3
    exact ⟨rfl, by simp, rfl⟩
  | headerError e =>
    left
    simp only [processCSV, uuidNew, Outcome.returned.injEq] at h
    obtain ⟨h1, h2, h3⟩ := h
    subst h1 h2 h3
    exact ⟨rfl, by simp, rfl⟩
  | readAllError hd e =>
    left
    simp only [processCSV, uuidNew, Outcome.returned.injEq] at h
    obtain ⟨h1, h2, h3⟩ := h
    subst h1 h2 h3
    exact ⟨rfl, by simp, rfl⟩
  | rows hd records =>
    right
    by_cases hwf : WellFormed records
    · rw [processCSV_rows_wellFormed gen now hd records hwf] at h
      simp only [Outcome.returned.injEq] at h
      obtain ⟨h1, h2, h3⟩ := h
      exact ⟨hd, records, rfl, hwf, h1.symm, h2.symm, h3.symm⟩
    · have hp : processCSV gen now (RowSource.rows hd records) = Outcome.panicked := by
        simp only [processCSV, uuidNew, processRecords_not_wellFormed gen records hwf]
      rw [hp] at h
      cases h

/-! ## Sample run -/

theorem sampleGen_injective : Function.Injective sampleGen := by
  intro a b h
  have hl := congrArg String.length h
  simpa [sampleGen, String.length] using hl

theorem processCSV_sample :
    processCSV sampleGen sampleNow (RowSource.rows sampleHeader sampleRecords) =
      Outcome.returned sampleDocument none 10 := by
  decide

/-! ## Row count and order -/

/-- C1: for a header followed by `N` data rows that all have at least three
fields, `processCSV` returns with a nil error, the document has exactly `N`
components, and the `i`-th component is the one the loop body builds from the
`i`-th data row (entered with generator state `2 + 4 * i`); the header
contributes no component. -/
theorem processCSV_components_in_row_order (gen : Nat → String) (now : String)
    (header : List String) (records : List (List String))
    (hwf : ∀ r ∈ records, 3 ≤ r.length) :
    ∃ doc calls,
      processCSV gen now (RowSource.rows header records) = Outcome.returned doc none calls ∧
      doc.ComponentDefinition.Components.length = records.length ∧
      ∀ i, (hi : i < records.length) →
        ∃ c, doc.ComponentDefinition.Components[i]? = some c ∧
          buildComponent gen (2 + 4 * i) records[i] = some (c, 2 + 4 * i + 4) := by
  refine ⟨_, _, processCSV_rows_wellFormed gen now header records hwf, ?_, ?_⟩
  · exact builtComponents_length gen records hwf 2
  · intro i hi
    exact builtComponents_getElem gen records hwf 2 i hi

theorem processCSV_components_in_row_order_witness :
    (∀ r ∈ sampleRecords, 3 ≤ r.length) ∧
    ∃ doc calls,
      processCSV sampleGen sampleNow (RowSource.rows sampleHeader sampleRecords) =
        Outcome.returned doc none calls ∧
      doc.ComponentDefinition.Components.length = sampleRecords.length ∧
      ∀ i, (hi : i < sampleRecords.length) →
        ∃ c, doc.ComponentDefinition.Components[i]? = some c ∧
          buildComponent sampleGen (2 + 4 * i) sampleRecords[i] = some (c, 2 + 4 * i + 4) :=
  ⟨by decide,
   processCSV_components_in_row_order sampleGen sampleNow sampleHeader sampleRecords
     (by decide)⟩

/-! ## Field mapping of one row -/

/-- C2: in the document for a well-formed input, the component at position `i`
takes its title from field 1 and its description from field 2 of data row `i`;
it has exactly one control implementation, described by
"Controls implemented by " ++ field 1 ++ " for inheritance by applications",
whose first implemented requirement has control id field 0 and description
field 2. -/
theorem processCSV_component_fields (gen : Nat → String) (now : String)
    (header : List String) (records : List (List String))
    (hwf : ∀ r ∈ records, 3 ≤ r.length) (i : Nat) (hi : i < records.length) :
    ∃ doc calls c ci ir r0 r1 r2,
      processCSV gen now (RowSource.rows header records) = Outcome.returned doc none calls ∧
      doc.ComponentDefinition.Components[i]? = some c ∧
      records[i][0]? = some r0 ∧ records[i][1]? = some r1 ∧ records[i][2]? = some r2 ∧
      c.Title = r1 ∧
      c.Description = r2 ∧
      c.ControlImplementations = [ci] ∧
      ci.Description = "Controls implemented by " ++ r1 ++ " for inheritance by applications" ∧
      ci.ImplementedRequirements[0]? = some ir ∧
      ir.ControlID = r0 ∧
      ir.Description = r2 := by
  obtain ⟨c, hc, hb⟩ := builtComponents_getElem gen records hwf 2 i hi
  obtain ⟨a, b, d, t, hr⟩ := exists_cons3 (hwf records[i] (List.getElem_mem _))
  rw [hr, buildComponent_cons3] at hb
  simp only [Option.some.injEq, Prod.mk.injEq] at hb
  obtain ⟨hb, -⟩ := hb
  subst hb
  refine ⟨_, _, _, _, _, a, b, d,
    processCSV_rows_wellFormed gen now header records hwf, hc, ?_, ?_, ?_,
    rfl, rfl, rfl, rfl, rfl, rfl, rfl⟩ <;> simp [hr]

theorem processCSV_component_fields_witness :
    (∀ r ∈ [["AC-1", "MyApp", "Enforces access control"]], 3 ≤ r.length) ∧
    0 < [["AC-1", "MyApp", "Enforces access control"]].length ∧
    ∃ doc calls c ci ir,
      processCSV sampleGen sampleNow
          (RowSource.rows sampleHeader [["AC-1", "MyApp", "Enforces access control"]]) =
        Outcome.returned doc none calls ∧
      doc.ComponentDefinition.Components[0]? = some c ∧
      c.Title = "MyApp" ∧
      c.Description = "Enforces access control" ∧
      c.ControlImplementations = [ci] ∧
      ci.Description = "Controls implemented by MyApp for inheritance by applications" ∧
      ci.ImplementedRequirements[0]? = some ir ∧
      ir.ControlID = "AC-1" ∧
      ir.Description = "Enforces access control" := by
  obtain ⟨doc, calls, c, ci, ir, r0, r1, r2, h, hc, h0, h1, h2, ht, hd, hci, hcd, hir, hid, hird⟩ :=
    processCSV_component_fields sampleGen sampleNow sampleHeader
      [["AC-1", "MyApp", "Enforces access control"]] (by decide) 0 (by decide)
  simp only [List.getElem_cons_zero, List.getElem?_cons_zero, List.getElem?_cons_succ,
    Option.some.injEq] at h0 h1 h2
  subst h0 h1 h2
  exact ⟨by decide, by decide, doc, calls, c, ci, ir, h, hc, ht, hd, hci, hcd, hir, hid, hird⟩

/-! ## Distinct identifiers -/

theorem flatMap_sublist_flatMap {α β : Type} (f g : α → List β)
    (h : ∀ a, List.Sublist (f a) (g a)) (l : List α) :
    List.Sublist (l.flatMap f) (l.flatMap g) := by
  induction l with
  | nil => simp
  | cons a l ih =>
    simp only [List.flatMap_cons]
    exact List.Sublist.append (h a) ih

theorem documentIds_sublist_documentTokens (doc : OscalComponent) :
    List.Sublist (documentIds doc) (documentTokens doc) := by
  unfold documentIds documentTokens
  refine List.Sublist.cons₂ _ (List.Sublist.append (List.Sublist.refl _) ?_)
  exact flatMap_sublist_flatMap _ _
    (fun c => List.sublist_append_left (componentIds c) (providerIds c)) _

/-- Every token stored in the components built from generator state `n` on is
the result of a call numbered `n` or later. -/
theorem builtComponents_tokens_ge (gen : Nat → String) (records : List (List String))
    (n : Nat) (x : String)
    (hx : x ∈ (builtComponents gen n records).flatMap componentTokens) :
    ∃ k, n ≤ k ∧ x = gen k := by
  induction records generalizing n with
  | nil => simp [builtComponents] at hx
  | cons r rest ih =>
    by_cases hr : 3 ≤ r.length
    · obtain ⟨a, b, c, t, rfl⟩ := exists_cons3 hr
      simp only [builtComponents, buildComponent_cons3, List.flatMap_cons,
        List.mem_append] at hx
      rcases hx with hx | hx
      · simp only [componentTokens, componentIds, providerIds, List.flatMap_cons,
          List.flatMap_nil, List.map_cons, List.map_nil, List.append_nil,
          List.cons_append, List.nil_append, List.mem_cons, List.mem_singleton,
          List.not_mem_nil, or_false] at hx
        rcases hx with rfl | rfl | rfl | rfl
        · exact ⟨n, Nat.le_refl _, rfl⟩
        · exact ⟨n + 3, by omega, rfl⟩
        · exact ⟨n + 1, by omega, rfl⟩
        · exact ⟨n + 2, by omega, rfl⟩
      · obtain ⟨k, hk, rfl⟩ := ih (n + 4) hx
        exact ⟨k, by omega, rfl⟩
    · simp [builtComponents, buildComponent_short gen n (Nat.lt_of_not_le hr)] at hx

theorem builtComponents_tokens_nodup (gen : Nat → String) (hgen : Function.Injective gen)
    (records : List (List String)) (n : Nat) :
    ((builtComponents gen n records).flatMap componentTokens).Nodup := by
  induction records generalizing n with
  | nil => simp [builtComponents]
  | cons r rest ih =>
    by_cases hr : 3 ≤ r.length
    · obtain ⟨a, b, c, t, rfl⟩ := exists_cons3 hr
      simp only [builtComponents, buildComponent_cons3, List.flatMap_cons]
      refine List.nodup_append.2 ⟨?_, ih (n + 4), ?_⟩
      · simp [componentTokens, componentIds, providerIds, hgen.eq_iff]
      · intro x hx hx'
        obtain ⟨k, hk, rfl⟩ := builtComponents_tokens_ge gen rest (n + 4) x hx'
        simp only [componentTokens, componentIds, providerIds, List.flatMap_cons,
          List.flatMap_nil, List.map_cons, List.map_nil, List.append_nil,
          List.cons_append, List.nil_append, List.mem_cons, List.mem_singleton,
          List.not_mem_nil, or_false, hgen.eq_iff] at hx
        omega
    · simp [builtComponents, buildComponent_short gen n (Nat.lt_of_not_le hr)]

/-- With a generator that never repeats a token, all tokens stored in the
document for a well-formed input are pairwise distinct. -/
theorem documentTokens_nodup (gen : Nat → String) (hgen : Function.Injective gen)
    (now : String) (records : List (List String)) :
    (documentTokens
      { ComponentDefinition :=
          { (initialDocument gen now).ComponentDefinition with
            Components := builtComponents gen 2 records } }).Nodup := by
  have hge := builtComponents_tokens_ge gen records 2
  have hnd := builtComponents_tokens_nodup gen hgen records 2
  simp only [documentTokens, initialDocument, List.map_cons, List.map_nil,
    List.singleton_append, List.nodup_cons, List.mem_cons, not_or]
  refine ⟨⟨?_, ?_⟩, ?_, hnd⟩
  · intro h
    have := hgen h
    omega
  · intro h
    obtain ⟨k, hk, e⟩ := hge _ h
    have := hgen e
    omega
  · intro h
    obtain ⟨k, hk, e⟩ := hge _ h
    have := hgen e
    omega

/-- C3: if the identifier generator returns a different token on every call,
then for every well-formed input all `uuid` fields of the returned document
(document, party, and every component, control implementation and implemented
requirement) are pairwise distinct. -/
theorem processCSV_ids_pairwise_distinct (gen : Nat → String)
    (hgen : Function.Injective gen) (now : String) (header : List String)
    (records : List (List String)) (hwf : ∀ r ∈ records, 3 ≤ r.length) :
    ∃ doc calls,
      processCSV gen now (RowSource.rows header records) = Outcome.returned doc none calls ∧
      (documentIds doc).Nodup :=
  ⟨_, _, processCSV_rows_wellFormed gen now header records hwf,
    List.Nodup.sublist (documentIds_sublist_documentTokens _)
      (documentTokens_nodup gen hgen now records)⟩

theorem processCSV_ids_pairwise_distinct_witness :
    Function.Injective sampleGen ∧ (∀ r ∈ sampleRecords, 3 ≤ r.length) ∧
    ∃ doc calls,
      processCSV sampleGen sampleNow (RowSource.rows sampleHeader sampleRecords) =
        Outcome.returned doc none calls ∧
      (documentIds doc).Nodup :=
  ⟨sampleGen_injective, by decide,
   processCSV_ids_pairwise_distinct sampleGen sampleGen_injective sampleNow sampleHeader
     sampleRecords (by decide)⟩

/-! ## Rows with fewer than three fields -/

/-- Whenever some data row has fewer than three fields, the call panics. -/
theorem processCSV_rows_not_wellFormed (gen : Nat → String) (now : String)
    (header : List String) (records : List (List String))
    (h : ∃ r ∈ records, r.length < 3) :
    processCSV gen now (RowSource.rows header records) = Outcome.panicked := by
  have hn : ¬ WellFormed records := by
    intro hw
    obtain ⟨r, hr, hlt⟩ := h
    exact absurd (hw r hr) (Nat.not_le_of_lt hlt)
  simp only [processCSV, uuidNew, processRecords_not_wellFormed gen records hn]

/-- C4: on the two-column input with header `Control,Component` and the single
data row `AC-1,MyApp`, `processCSV` does not return an error: the index
expression `record[2]` is out of range and the call panics. -/
theorem processCSV_two_column_row_panics :
    processCSV sampleGen sampleNow
        (RowSource.rows ["Control", "Component"] [["AC-1", "MyApp"]]) =
      Outcome.panicked := by
  decide

/-! ## Error returns -/

/-- C5 as stated fails: when the header cannot be read, the value returned
next to the error is not the zero value; it holds the document id and the
metadata. -/
theorem processCSV_headerError_document_populated :
    processCSV sampleGen sampleNow (RowSource.headerError "EOF") =
      Outcome.returned
        { ComponentDefinition :=
            { UUID := "u"
              Metadata :=
                { Version := "0.0.1"
                  LastModified := "2023-06-01T12:00:00Z"
                  OscalVersion := "1.0.4"
                  Title := "DUBBD"
                  Parties :=
                    [{ Type_ := "organization"
                       Name := "Defense Unicorns"
                       UUID := "uu"
                       Links := [{ Rel := "website", Href := "https://defenseunicorns.com" }] }] }
              Components := [] } }
        (some "EOF") 2 ∧
    ¬ ∃ calls, processCSV sampleGen sampleNow (RowSource.headerError "EOF") =
      Outcome.returned zeroDocument (some "EOF") calls := by
  refine ⟨by decide, ?_⟩
  rintro ⟨calls, h⟩
  have h2 : processCSV sampleGen sampleNow (RowSource.headerError "EOF") =
      Outcome.returned (initialDocument sampleGen sampleNow) (some "EOF") 2 := rfl
  rw [h2] at h
  simp only [Outcome.returned.injEq] at h
  exact absurd h.1 (by decide)

/-- C5, amended: when the file cannot be opened or the header cannot be read,
`processCSV` returns that error after two generator calls, and the value
returned next to it is the document as initialised before the file is opened:
the document id, the fixed metadata with the time stamp and the one party, and
no components. -/
theorem processCSV_source_error (gen : Nat → String) (now err : String)
    (src : RowSource)
    (hsrc : src = RowSource.openError err ∨ src = RowSource.headerError err) :
    processCSV gen now src =
      Outcome.returned
        { ComponentDefinition :=
            { UUID := gen 0
              Metadata :=
                { Version := "0.0.1"
                  LastModified := now
                  OscalVersion := "1.0.4"
                  Title := "DUBBD"
                  Parties :=
                    [{ Type_ := "organization"
                       Name := "Defense Unicorns"
                       UUID := gen 1
                       Links := [{ Rel := "website", Href := "https://defenseunicorns.com" }] }] }
              Components := [] } }
        (some err) 2 := by
  rcases hsrc with rfl | rfl <;> rfl

theorem processCSV_source_error_witness :
    (RowSource.openError "open uploads/in.csv: no such file" =
        RowSource.openError "open uploads/in.csv: no such file" ∨
      RowSource.openError "open uploads/in.csv: no such file" =
        RowSource.headerError "open uploads/in.csv: no such file") ∧
    processCSV sampleGen sampleNow (RowSource.openError "open uploads/in.csv: no such file") =
      Outcome.returned
        { ComponentDefinition :=
            { UUID := sampleGen 0
              Metadata :=
                { Version := "0.0.1"
                  LastModified := sampleNow
                  OscalVersion := "1.0.4"
                  Title := "DUBBD"
                  Parties :=
                    [{ Type_ := "organization"
                       Name := "Defense Unicorns"
                       UUID := sampleGen 1
                       Links := [{ Rel := "website", Href := "https://defenseunicorns.com" }] }] }
              Components := [] } }
        (some "open uploads/in.csv: no such file") 2 :=
  ⟨Or.inl rfl,
   processCSV_source_error sampleGen sampleNow "open uploads/in.csv: no such file"
     (RowSource.openError "open uploads/in.csv: no such file") (Or.inl rfl)⟩

/-! ## Metadata -/

/-- C6: on a header-only input `processCSV` returns with a nil error a document
without components and with its metadata filled in; and whenever `processCSV`
returns with a nil error, the metadata has version "0.0.1", oscal-version
"1.0.4", title "DUBBD" and exactly one party: type "organization", name
"Defense Unicorns", one link with rel "website" and href
"https://defenseunicorns.com", whatever the rows are. -/
theorem processCSV_metadata (gen : Nat → String) (now : String) :
    (∀ header, ∃ doc calls,
      processCSV gen now (RowSource.rows header []) = Outcome.returned doc none calls ∧
      doc.ComponentDefinition.Components = [] ∧
      doc.ComponentDefinition.UUID = gen 0 ∧
      doc.ComponentDefinition.Metadata.LastModified = now ∧
      doc.ComponentDefinition.Metadata.Parties.length = 1) ∧
    (∀ src doc calls, processCSV gen now src = Outcome.returned doc none calls →
      doc.ComponentDefinition.Metadata.Version = "0.0.1" ∧
      doc.ComponentDefinition.Metadata.OscalVersion = "1.0.4" ∧
      doc.ComponentDefinition.Metadata.Title = "DUBBD" ∧
      ∃ partyUUID, doc.ComponentDefinition.Metadata.Parties =
        [{ Type_ := "organization"
           Name := "Defense Unicorns"
           UUID := partyUUID
           Links := [{ Rel := "website", Href := "https://defenseunicorns.com" }] }]) := by
  constructor
  · intro header
    exact ⟨_, _, rfl, rfl, rfl, rfl, rfl⟩
  · intro src doc calls h
    rcases processCSV_returned h with ⟨rfl, -, -⟩ | ⟨_, _, -, -, rfl, -, -⟩
    · exact ⟨rfl, rfl, rfl, gen 1, rfl⟩
    · exact ⟨rfl, rfl, rfl, gen 1, rfl⟩

theorem processCSV_metadata_witness :
    processCSV sampleGen sampleNow (RowSource.rows sampleHeader sampleRecords) =
      Outcome.returned sampleDocument none 10 ∧
    sampleDocument.ComponentDefinition.Metadata.Version = "0.0.1" ∧
    sampleDocument.ComponentDefinition.Metadata.OscalVersion = "1.0.4" ∧
    sampleDocument.ComponentDefinition.Metadata.Title = "DUBBD" ∧
    ∃ partyUUID, sampleDocument.ComponentDefinition.Metadata.Parties =
      [{ Type_ := "organization"
         Name := "Defense Unicorns"
         UUID := partyUUID
         Links := [{ Rel := "website", Href := "https://defenseunicorns.com" }] }] :=
  ⟨by decide,
   (processCSV_metadata sampleGen sampleNow).2
     (RowSource.rows sampleHeader sampleRecords) sampleDocument 10 (by decide)⟩

/-! ## Structure is independent of the generator -/

theorem builtComponents_eraseIds (gen₁ gen₂ : Nat → String)
    (records : List (List String)) (n₁ n₂ : Nat) :
    (builtComponents gen₁ n₁ records).map Component.eraseIds =
      (builtComponents gen₂ n₂ records).map Component.eraseIds := by
  induction records generalizing n₁ n₂ with
  | nil => rfl
  | cons r rest ih =>
    by_cases hr : 3 ≤ r.length
    · obtain ⟨a, b, c, t, rfl⟩ := exists_cons3 hr
      simp only [builtComponents, buildComponent_cons3, List.map_cons, ih (n₁ + 4) (n₂ + 4)]
      rfl
    · simp only [builtComponents, buildComponent_short _ _ (Nat.lt_of_not_le hr)]

/-- C7 as stated fails: two runs on the same header-only input at different
times give documents that differ after erasing the generated identifiers,
namely in `last-modified`. -/
theorem processCSV_erased_documents_differ :
    ∃ doc₁ doc₂ calls₁ calls₂,
      processCSV sampleGen "2023-06-01T12:00:00Z" (RowSource.rows sampleHeader []) =
        Outcome.returned doc₁ none calls₁ ∧
      processCSV sampleGen "2023-06-01T12:00:01Z" (RowSource.rows sampleHeader []) =
        Outcome.returned doc₂ none calls₂ ∧
      doc₁.eraseIds ≠ doc₂.eraseIds :=
  ⟨_, _, _, _, rfl, rfl, by decide⟩

/-- C7, amended: for every well-formed input, two runs with arbitrary
generators and time stamps return documents that are equal after erasing the
generated identifiers and the `last-modified` time stamp; when both runs read
the same time stamp, the documents are equal after erasing the generated
identifiers alone. -/
theorem processCSV_structure_deterministic (gen₁ gen₂ : Nat → String)
    (now₁ now₂ : String) (header : List String) (records : List (List String))
    (hwf : ∀ r ∈ records, 3 ≤ r.length) :
    ∃ doc₁ calls₁ doc₂ calls₂,
      processCSV gen₁ now₁ (RowSource.rows header records) =
        Outcome.returned doc₁ none calls₁ ∧
      processCSV gen₂ now₂ (RowSource.rows header records) =
        Outcome.returned doc₂ none calls₂ ∧
      doc₁.eraseIds.eraseLastModified = doc₂.eraseIds.eraseLastModified ∧
      (now₁ = now₂ → doc₁.eraseIds = doc₂.eraseIds) := by
  refine ⟨_, _, _, _, processCSV_rows_wellFormed gen₁ now₁ header records hwf,
    processCSV_rows_wellFormed gen₂ now₂ header records hwf, ?_, ?_⟩
  · simp only [OscalComponent.eraseIds, OscalComponent.eraseLastModified, initialDocument,
      builtComponents_eraseIds gen₁ gen₂ records 2 2]
    rfl
  · rintro rfl
    simp only [OscalComponent.eraseIds, initialDocument,
      builtComponents_eraseIds gen₁ gen₂ records 2 2]
    rfl

theorem processCSV_structure_deterministic_witness :
    (∀ r ∈ sampleRecords, 3 ≤ r.length) ∧
    ∃ doc₁ calls₁ doc₂ calls₂,
      processCSV sampleGen "2023-06-01T12:00:00Z" (RowSource.rows sampleHeader sampleRecords) =
        Outcome.returned doc₁ none calls₁ ∧
      processCSV (fun k => sampleGen (k + 100)) "2023-06-01T12:00:01Z"
          (RowSource.rows sampleHeader sampleRecords) =
        Outcome.returned doc₂ none calls₂ ∧
      doc₁.eraseIds.eraseLastModified = doc₂.eraseIds.eraseLastModified ∧
      ("2023-06-01T12:00:00Z" = "2023-06-01T12:00:01Z" → doc₁.eraseIds = doc₂.eraseIds) :=
  ⟨by decide,
   processCSV_structure_deterministic sampleGen (fun k => sampleGen (k + 100))
     "2023-06-01T12:00:00Z" "2023-06-01T12:00:01Z" sampleHeader sampleRecords (by decide)⟩

/-! ## Number of generator calls -/

/-- C8 as stated fails: on an input with one data row the generator is called
six times, not `2 + 3 * 1` times. -/
theorem processCSV_one_row_six_calls :
    ∃ doc calls,
      processCSV sampleGen sampleNow
          (RowSource.rows sampleHeader [["AC-1", "MyApp", "Enforces access control"]]) =
        Outcome.returned doc none calls ∧
      calls = 6 ∧
      calls ≠ 2 + 3 * [["AC-1", "MyApp", "Enforces access control"]].length :=
  ⟨_, _, rfl, rfl, by decide⟩

/-- C8, amended: for each data row `processCSV` takes four fresh tokens from
the generator, in this order: the component's `uuid`, the implemented
requirement's `uuid`, the "provider" party reference and the control
implementation's `uuid`; on a well-formed input with `N` data rows the
generator is called exactly `2 + 4 * N` times. -/
theorem processCSV_generator_calls (gen : Nat → String) (now : String)
    (header : List String) (records : List (List String))
    (hwf : ∀ r ∈ records, 3 ≤ r.length) :
    ∃ doc,
      processCSV gen now (RowSource.rows header records) =
        Outcome.returned doc none (2 + 4 * records.length) ∧
      doc.ComponentDefinition.UUID = gen 0 ∧
      doc.ComponentDefinition.Metadata.Parties.map (fun p => p.UUID) = [gen 1] ∧
      ∀ i, i < records.length →
        ∃ c ci ir,
          doc.ComponentDefinition.Components[i]? = some c ∧
          c.UUID = gen (2 + 4 * i) ∧
          c.ControlImplementations = [ci] ∧
          ci.ImplementedRequirements = [ir] ∧
          ir.UUID = gen (2 + 4 * i + 1) ∧
          c.ResponsibleRoles = [{ RoleID := "provider", PartyUUIDs := [gen (2 + 4 * i + 2)] }] ∧
          ci.UUID = gen (2 + 4 * i + 3) := by
  refine ⟨_, processCSV_rows_wellFormed gen now header records hwf, rfl, rfl, ?_⟩
  intro i hi
  obtain ⟨c, hc, hb⟩ := builtComponents_getElem gen records hwf 2 i hi
  obtain ⟨a, b, d, t, hr⟩ := exists_cons3 (hwf records[i] (List.getElem_mem _))
  rw [hr, buildComponent_cons3] at hb
  simp only [Option.some.injEq, Prod.mk.injEq] at hb
  obtain ⟨hb, -⟩ := hb
  subst hb
  exact ⟨_, _, _, hc, rfl, rfl, rfl, rfl, rfl, rfl⟩

theorem processCSV_generator_calls_witness :
    (∀ r ∈ sampleRecords, 3 ≤ r.length) ∧
    ∃ doc,
      processCSV sampleGen sampleNow (RowSource.rows sampleHeader sampleRecords) =
        Outcome.returned doc none (2 + 4 * sampleRecords.length) ∧
      doc.ComponentDefinition.UUID = sampleGen 0 ∧
      doc.ComponentDefinition.Metadata.Parties.map (fun p => p.UUID) = [sampleGen 1] ∧
      ∀ i, i < sampleRecords.length →
        ∃ c ci ir,
          doc.ComponentDefinition.Components[i]? = some c ∧
          c.UUID = sampleGen (2 + 4 * i) ∧
          c.ControlImplementations = [ci] ∧
          ci.ImplementedRequirements = [ir] ∧
          ir.UUID = sampleGen (2 + 4 * i + 1) ∧
          c.ResponsibleRoles =
            [{ RoleID := "provider", PartyUUIDs := [sampleGen (2 + 4 * i + 2)] }] ∧
          ci.UUID = sampleGen (2 + 4 * i + 3) :=
  ⟨by decide,
   processCSV_generator_calls sampleGen sampleNow sampleHeader sampleRecords (by decide)⟩

/-! ## Shape and constant fields of every component -/

/-- Every component of a returned document is the result of the loop body on
some data row. -/
theorem mem_builtComponents {gen : Nat → String} {records : List (List String)}
    {n : Nat} {c : Component} (hc : c ∈ builtComponents gen n records) :
    ∃ k r, r ∈ records ∧ buildComponent gen k r = some (c, k + 4) := by
  induction records generalizing n with
  | nil => simp [builtComponents] at hc
  | cons r rest ih =>
    by_cases hr : 3 ≤ r.length
    · obtain ⟨a, b, d, t, rfl⟩ := exists_cons3 hr
      simp only [builtComponents, buildComponent_cons3, List.mem_cons] at hc
      rcases hc with rfl | hc
      · exact ⟨n, _, List.mem_cons_self _ _, buildComponent_cons3 gen n a b d t⟩
      · obtain ⟨k, r', hr', hb⟩ := ih hc
        exact ⟨k, r', List.mem_cons_of_mem _ hr', hb⟩
    · simp [builtComponents, buildComponent_short gen n (Nat.lt_of_not_le hr)] at hc

theorem processCSV_component_built {gen : Nat → String} {now : String} {src : RowSource}
    {doc : OscalComponent} {err : Option String} {calls : Nat}
    (h : processCSV gen now src = Outcome.returned doc err calls)
    {c : Component} (hc : c ∈ doc.ComponentDefinition.Components) :
    ∃ k a b d t, buildComponent gen k (a :: b :: d :: t) = some (c, k + 4) := by
  rcases processCSV_returned h with ⟨rfl, -, -⟩ | ⟨_, records, -, -, rfl, -, -⟩
  · simp [initialDocument] at hc
  · obtain ⟨k, r, -, hb⟩ := mem_builtComponents hc
    obtain ⟨a, b, d, t, rfl⟩ := exists_cons3 (buildComponent_some_length hb)
    exact ⟨k, a, b, d, t, hb⟩

/-- C9: every component of a document returned by `processCSV` has exactly one
responsible-roles entry, with role id "provider" and exactly one party id,
exactly one control implementation, and that control implementation has
exactly one implemented requirement. -/
theorem processCSV_component_shape (gen : Nat → String) (now : String) (src : RowSource)
    (doc : OscalComponent) (err : Option String) (calls : Nat)
    (h : processCSV gen now src = Outcome.returned doc err calls) :
    ∀ c ∈ doc.ComponentDefinition.Components,
      (∃ partyUUID,
        c.ResponsibleRoles = [{ RoleID := "provider", PartyUUIDs := [partyUUID] }]) ∧
      ∃ ci ir, c.ControlImplementations = [ci] ∧ ci.ImplementedRequirements = [ir] := by
  intro c hc
  obtain ⟨k, a, b, d, t, hb⟩ := processCSV_component_built h hc
  rw [buildComponent_cons3] at hb
  simp only [Option.some.injEq, Prod.mk.injEq] at hb
  obtain ⟨hb, -⟩ := hb
  subst hb
  exact ⟨⟨_, rfl⟩, _, _, rfl, rfl⟩

theorem processCSV_component_shape_witness :
    processCSV sampleGen sampleNow (RowSource.rows sampleHeader sampleRecords) =
      Outcome.returned sampleDocument none 10 ∧
    sampleDocument.ComponentDefinition.Components.length = 2 ∧
    ∀ c ∈ sampleDocument.ComponentDefinition.Components,
      (∃ partyUUID,
        c.ResponsibleRoles = [{ RoleID := "provider", PartyUUIDs := [partyUUID] }]) ∧
      ∃ ci ir, c.ControlImplementations = [ci] ∧ ci.ImplementedRequirements = [ir] :=
  ⟨by decide, rfl,
   processCSV_component_shape sampleGen sampleNow (RowSource.rows sampleHeader sampleRecords)
     sampleDocument none 10 (by decide)⟩

/-- C10: every component of a document returned by `processCSV` has type
"software" and purpose "Purpose of the component", and each of its control
implementations (there is exactly one) has the NIST SP 800-53 rev5 catalog URL
as source, whatever the row contains. -/
theorem processCSV_component_constants (gen : Nat → String) (now : String)
    (src : RowSource) (doc : OscalComponent) (err : Option String) (calls : Nat)
    (h : processCSV gen now src = Outcome.returned doc err calls) :
    ∀ c ∈ doc.ComponentDefinition.Components,
      c.Type_ = "software" ∧
      c.Purpose = "Purpose of the component" ∧
      ∃ ci, c.ControlImplementations = [ci] ∧
        ci.Source = "https://raw.githubusercontent.com/usnistgov/oscal-content/master/nist.gov/SP800-53/rev5/json/NIST_SP-800-53_rev5_catalog.json" := by
  intro c hc
  obtain ⟨k, a, b, d, t, hb⟩ := processCSV_component_built h hc
  rw [buildComponent_cons3] at hb
  simp only [Option.some.injEq, Prod.mk.injEq] at hb
  obtain ⟨hb, -⟩ := hb
  subst hb
  exact ⟨rfl, rfl, _, rfl, rfl⟩

theorem processCSV_component_constants_witness :
    processCSV sampleGen sampleNow (RowSource.rows sampleHeader sampleRecords) =
      Outcome.returned sampleDocument none 10 ∧
    sampleDocument.ComponentDefinition.Components.length = 2 ∧
    ∀ c ∈ sampleDocument.ComponentDefinition.Components,
      c.Type_ = "software" ∧
      c.Purpose = "Purpose of the component" ∧
      ∃ ci, c.ControlImplementations = [ci] ∧
        ci.Source = "https://raw.githubusercontent.com/usnistgov/oscal-content/master/nist.gov/SP800-53/rev5/json/NIST_SP-800-53_rev5_catalog.json" :=
  ⟨by decide, rfl,
   processCSV_component_constants sampleGen sampleNow
     (RowSource.rows sampleHeader sampleRecords) sampleDocument none 10 (by decide)⟩

/-! ## Totality on well-formed input -/

/-- C11: when every data row has at least three fields, no index expression of
the loop body is out of range on any row, the loop returns from every starting
state, and `processCSV` does not panic: it returns a document with a nil
error. -/
theorem processCSV_total_on_wellFormed (gen : Nat → String) (now : String)
    (header : List String) (records : List (List String))
    (hwf : ∀ r ∈ records, 3 ≤ r.length) :
    (∀ r ∈ records, ∀ n, ∃ c, buildComponent gen n r = some (c, n + 4)) ∧
    (∀ oc n, ∃ doc calls, processRecords gen records oc n = Outcome.returned doc none calls) ∧
    processCSV gen now (RowSource.rows header records) ≠ Outcome.panicked ∧
    ∃ doc calls,
      processCSV gen now (RowSource.rows header records) = Outcome.returned doc none calls := by
  refine ⟨?_, ?_, ?_, _, _, processCSV_rows_wellFormed gen now header records hwf⟩
  · intro r hr n
    obtain ⟨a, b, c, t, rfl⟩ := exists_cons3 (hwf r hr)
    exact ⟨_, buildComponent_cons3 gen n a b c t⟩
  · intro oc n
    exact ⟨_, _, processRecords_wellFormed gen records hwf oc n⟩
  · rw [processCSV_rows_wellFormed gen now header records hwf]
    intro h
    cases h

theorem processCSV_total_on_wellFormed_witness :
    (∀ r ∈ sampleRecords, 3 ≤ r.length) ∧
    (∀ r ∈ sampleRecords, ∀ n, ∃ c, buildComponent sampleGen n r = some (c, n + 4)) ∧
    (∀ oc n, ∃ doc calls,
      processRecords sampleGen sampleRecords oc n = Outcome.returned doc none calls) ∧
    processCSV sampleGen sampleNow (RowSource.rows sampleHeader sampleRecords) ≠
      Outcome.panicked ∧
    ∃ doc calls,
      processCSV sampleGen sampleNow (RowSource.rows sampleHeader sampleRecords) =
        Outcome.returned doc none calls :=
  ⟨by decide,
   processCSV_total_on_wellFormed sampleGen sampleNow sampleHeader sampleRecords (by decide)⟩

/-! ## Provider party references -/

theorem builtComponents_providerIds (gen : Nat → String) (records : List (List String))
    (hwf : WellFormed records) (n i : Nat) (c : Component)
    (hc : (builtComponents gen n records)[i]? = some c) :
    providerIds c = [gen (n + 4 * i + 2)] := by
  have hi : i < records.length := by
    have h1 := (List.getElem?_eq_some.1 hc).1
    rwa [builtComponents_length gen records hwf n] at h1
  obtain ⟨c', hc', hb⟩ := builtComponents_getElem gen records hwf n i hi
  rw [hc] at hc'
  cases hc'
  obtain ⟨a, b, d, t, hr⟩ := exists_cons3 (hwf records[i] (List.getElem_mem _))
  rw [hr, buildComponent_cons3] at hb
  simp only [Option.some.injEq, Prod.mk.injEq] at hb
  obtain ⟨hb, -⟩ := hb
  subst hb
  simp [providerIds]

/-- C12: if the identifier generator returns a different token on every call,
then in every document returned by `processCSV` a party id listed in a
component's responsible-role entry is not the `uuid` of any party of the
metadata, and the party ids listed by components at different positions are
different. -/
theorem processCSV_provider_ids_unlinked (gen : Nat → String)
    (hgen : Function.Injective gen) (now : String) (src : RowSource)
    (doc : OscalComponent) (err : Option String) (calls : Nat)
    (h : processCSV gen now src = Outcome.returned doc err calls) :
    (∀ c ∈ doc.ComponentDefinition.Components, ∀ role ∈ c.ResponsibleRoles,
      ∀ partyUUID ∈ role.PartyUUIDs, ∀ p ∈ doc.ComponentDefinition.Metadata.Parties,
        partyUUID ≠ p.UUID) ∧
    (∀ (i j : Nat) (ci cj : Component),
      doc.ComponentDefinition.Components[i]? = some ci →
      doc.ComponentDefinition.Components[j]? = some cj →
      i ≠ j →
      ∀ ri ∈ ci.ResponsibleRoles, ∀ rj ∈ cj.ResponsibleRoles,
        ∀ x ∈ ri.PartyUUIDs, x ∉ rj.PartyUUIDs) := by
  rcases processCSV_returned h with ⟨rfl, -, -⟩ | ⟨_, records, -, hwf, rfl, -, -⟩
  · constructor
    · intro c hc
      simp [initialDocument] at hc
    · intro i j ci cj hi
      simp [initialDocument] at hi
  · constructor
    · intro c hc role hrole x hx p hp
      obtain ⟨i, hi⟩ := List.getElem?_of_mem hc
      have hprov := builtComponents_providerIds gen records hwf 2 i c hi
      have hxm : x ∈ providerIds c := List.mem_flatMap.2 ⟨role, hrole, hx⟩
      rw [hprov, List.mem_singleton] at hxm
      simp only [initialDocument, List.mem_singleton] at hp
      subst hp hxm
      intro e
      have := hgen e
      omega
    · intro i j ci cj hi hj hij ri hri rj hrj x hx hx'
      change (builtComponents gen 2 records)[i]? = some ci at hi
      change (builtComponents gen 2 records)[j]? = some cj at hj
      have hpi := builtComponents_providerIds gen records hwf 2 i ci hi
      have hpj := builtComponents_providerIds gen records hwf 2 j cj hj
      have hxi : x ∈ providerIds ci := List.mem_flatMap.2 ⟨ri, hri, hx⟩
      have hxj : x ∈ providerIds cj := List.mem_flatMap.2 ⟨rj, hrj, hx'⟩
      rw [hpi, List.mem_singleton] at hxi
      rw [hpj, List.mem_singleton] at hxj
      have := hgen (hxi.symm.trans hxj)
      omega

theorem processCSV_provider_ids_unlinked_witness :
    Function.Injective sampleGen ∧
    processCSV sampleGen sampleNow (RowSource.rows sampleHeader sampleRecords) =
      Outcome.returned sampleDocument none 10 ∧
    (∀ c ∈ sampleDocument.ComponentDefinition.Components, ∀ role ∈ c.ResponsibleRoles,
      ∀ partyUUID ∈ role.PartyUUIDs,
        ∀ p ∈ sampleDocument.ComponentDefinition.Metadata.Parties, partyUUID ≠ p.UUID) ∧
    (∀ (i j : Nat) (ci cj : Component),
      sampleDocument.ComponentDefinition.Components[i]? = some ci →
      sampleDocument.ComponentDefinition.Components[j]? = some cj →
      i ≠ j →
      ∀ ri ∈ ci.ResponsibleRoles, ∀ rj ∈ cj.ResponsibleRoles,
        ∀ x ∈ ri.PartyUUIDs, x ∉ rj.PartyUUIDs) :=
  ⟨sampleGen_injective, by decide,
   processCSV_provider_ids_unlinked sampleGen sampleGen_injective sampleNow
     (RowSource.rows sampleHeader sampleRecords) sampleDocument none 10 (by decide)⟩

/-! ## Only the first three fields of a row are read -/

theorem buildComponent_congr (gen : Nat → String) (n : Nat) {r s : List String}
    (h : SameFirstThree r s) : buildComponent gen n r = buildComponent gen n s := by
  obtain ⟨h0, h1, h2⟩ := h
  simp only [buildComponent, h0, h1, h2]

theorem processRecords_congr (gen : Nat → String) {records₁ records₂ : List (List String)}
    (h : List.Forall₂ SameFirstThree records₁ records₂) (oc : OscalComponent) (n : Nat) :
    processRecords gen records₁ oc n = processRecords gen records₂ oc n := by
  induction h generalizing oc n with
  | nil => rfl
  | cons hrs _ ih =>
    simp only [processRecords, buildComponent_congr gen n hrs]
    split
    · rfl
    · exact ih _ _

/-- C13: for two inputs with the same number of data rows, all with at least
three fields, whose corresponding rows agree on fields 0, 1 and 2, `processCSV`
run with the same generator and time stamp returns the same document with a
nil error, whatever the headers and the further fields are. -/
theorem processCSV_depends_on_first_three_fields (gen : Nat → String) (now : String)
    (header₁ header₂ : List String) (records₁ records₂ : List (List String))
    (hwf₁ : ∀ r ∈ records₁, 3 ≤ r.length) (hwf₂ : ∀ r ∈ records₂, 3 ≤ r.length)
    (hsame : List.Forall₂ SameFirstThree records₁ records₂) :
    ∃ doc calls,
      processCSV gen now (RowSource.rows header₁ records₁) = Outcome.returned doc none calls ∧
      processCSV gen now (RowSource.rows header₂ records₂) = Outcome.returned doc none calls := by
  have h₁ := processCSV_rows_wellFormed gen now header₁ records₁ hwf₁
  have h₂ := processCSV_rows_wellFormed gen now header₂ records₂ hwf₂
  have h : processCSV gen now (RowSource.rows header₁ records₁) =
      processCSV gen now (RowSource.rows header₂ records₂) := by
    simp only [processCSV, uuidNew]
    exact processRecords_congr gen hsame _ _
  rw [h₁, h₂] at h
  simp only [Outcome.returned.injEq] at h
  obtain ⟨hdoc, -, hcalls⟩ := h
  refine ⟨_, _, h₁, ?_⟩
  rw [h₂, hdoc, hcalls]

theorem processCSV_depends_on_first_three_fields_witness :
    (∀ r ∈ sampleRecords, 3 ≤ r.length) ∧ (∀ r ∈ sampleWideRecords, 3 ≤ r.length) ∧
    List.Forall₂ SameFirstThree sampleRecords sampleWideRecords ∧
    ∃ doc calls,
      processCSV sampleGen sampleNow (RowSource.rows sampleHeader sampleRecords) =
        Outcome.returned doc none calls ∧
      processCSV sampleGen sampleNow (RowSource.rows sampleWideHeader sampleWideRecords) =
        Outcome.returned doc none calls :=
  ⟨by decide, by decide,
   List.Forall₂.cons ⟨rfl, rfl, rfl⟩ (List.Forall₂.cons ⟨rfl, rfl, rfl⟩ List.Forall₂.nil),
   processCSV_depends_on_first_three_fields sampleGen sampleNow sampleHeader sampleWideHeader
     sampleRecords sampleWideRecords (by decide) (by decide)
     (List.Forall₂.cons ⟨rfl, rfl, rfl⟩ (List.Forall₂.cons ⟨rfl, rfl, rfl⟩ List.Forall₂.nil))⟩

/-! ## Rows do not interact -/

theorem builtComponents_append (gen : Nat → String) (A B : List (List String))
    (hA : WellFormed A) (n : Nat) :
    builtComponents gen n (A ++ B) =
      builtComponents gen n A ++ builtComponents gen (n + 4 * A.length) B := by
  induction A generalizing n with
  | nil => simp [builtComponents]
  | cons r rest ih =>
    obtain ⟨a, b, c, t, rfl⟩ := exists_cons3 (hA r (List.mem_cons_self _ _))
    have hrest : WellFormed rest := fun x hx => hA x (List.mem_cons_of_mem _ hx)
    have e : n + 4 * (rest.length + 1) = n + 4 + 4 * rest.length := by omega
    have ih' := ih hrest (n + 4)
    simp only [List.cons_append, builtComponents, buildComponent_cons3, List.length_cons, e]
    exact congrArg (List.cons _) ih'

theorem wellFormed_append {A B : List (List String)} (hA : WellFormed A)
    (hB : WellFormed B) : WellFormed (A ++ B) := by
  intro r hr
  rcases List.mem_append.1 hr with h | h
  · exact hA r h
  · exact hB r h

/-- C14: for well-formed row sequences `A` and `B`, the components of the
document for `A ++ B`, with generated identifiers erased, are the components
for `A` followed by the components for `B`, each with generated identifiers
erased, whatever generators, time stamps and headers the three runs use; the
document for `A ++ B` has one component per row of `A` and of `B`, so no rows
are merged or dropped. -/
theorem processCSV_components_append (gen gen₁ gen₂ : Nat → String)
    (now now₁ now₂ : String) (header header₁ header₂ : List String)
    (A B : List (List String))
    (hA : ∀ r ∈ A, 3 ≤ r.length) (hB : ∀ r ∈ B, 3 ≤ r.length) :
    ∃ doc calls docA callsA docB callsB,
      processCSV gen now (RowSource.rows header (A ++ B)) = Outcome.returned doc none calls ∧
      processCSV gen₁ now₁ (RowSource.rows header₁ A) = Outcome.returned docA none callsA ∧
      processCSV gen₂ now₂ (RowSource.rows header₂ B) = Outcome.returned docB none callsB ∧
      doc.ComponentDefinition.Components.map Component.eraseIds =
        docA.ComponentDefinition.Components.map Component.eraseIds ++
          docB.ComponentDefinition.Components.map Component.eraseIds ∧
      doc.ComponentDefinition.Components.length = A.length + B.length := by
  refine ⟨_, _, _, _, _, _,
    processCSV_rows_wellFormed gen now header (A ++ B) (wellFormed_append hA hB),
    processCSV_rows_wellFormed gen₁ now₁ header₁ A hA,
    processCSV_rows_wellFormed gen₂ now₂ header₂ B hB, ?_, ?_⟩
  · show (builtComponents gen 2 (A ++ B)).map Component.eraseIds =
      (builtComponents gen₁ 2 A).map Component.eraseIds ++
        (builtComponents gen₂ 2 B).map Component.eraseIds
    rw [builtComponents_append gen A B hA 2, List.map_append,
      builtComponents_eraseIds gen gen₁ A 2 2,
      builtComponents_eraseIds gen gen₂ B (2 + 4 * A.length) 2]
  · show (builtComponents gen 2 (A ++ B)).length = A.length + B.length
    rw [builtComponents_length gen (A ++ B) (wellFormed_append hA hB) 2, List.length_append]

theorem processCSV_components_append_witness :
    (∀ r ∈ [["AC-1", "MyApp", "Enforces access control"]], 3 ≤ r.length) ∧
    ∃ doc calls docA callsA docB callsB,
      processCSV sampleGen sampleNow
          (RowSource.rows sampleHeader
            ([["AC-1", "MyApp", "Enforces access control"]] ++
              [["AC-1", "MyApp", "Enforces access control"]])) =
        Outcome.returned doc none calls ∧
      processCSV sampleGen sampleNow
          (RowSource.rows sampleHeader [["AC-1", "MyApp", "Enforces access control"]]) =
        Outcome.returned docA none callsA ∧
      processCSV sampleGen sampleNow
          (RowSource.rows sampleHeader [["AC-1", "MyApp", "Enforces access control"]]) =
        Outcome.returned docB none callsB ∧
      doc.ComponentDefinition.Components.map Component.eraseIds =
        docA.ComponentDefinition.Components.map Component.eraseIds ++
          docB.ComponentDefinition.Components.map Component.eraseIds ∧
      doc.ComponentDefinition.Components.length =
        [["AC-1", "MyApp", "Enforces access control"]].length +
          [["AC-1", "MyApp", "Enforces access control"]].length :=
  ⟨by decide,
   processCSV_components_append sampleGen sampleGen sampleGen sampleNow sampleNow sampleNow
     sampleHeader sampleHeader sampleHeader
     [["AC-1", "MyApp", "Enforces access control"]]
     [["AC-1", "MyApp", "Enforces access control"]] (by decide) (by decide)⟩

end DDWebapp
